import Mathlib

/-!
Shallow embedding of the stock-analyzer pipeline (src/app.py) and proofs
about its cleaning, ranking, joining and error-reporting behaviour.

Modelling conventions:
* A pandas `DataFrame` is a `Table`: an ordered list of column names plus an
  ordered list of rows; a row is an association list from column name to `Cell`.
* A cell is a string, an exact rational number, or `missing` (pandas `NaN`).
  Python floats are modelled as exact rationals: every numeric literal the
  pipeline parses is a decimal string, which embeds exactly into `ℚ`
  (infinities are not modelled).
* Column-wise pandas operations (`Series.str.replace`, `astype(str)`, …)
  are modelled cell-wise and mapped over the column.
* `pd.to_numeric(errors='coerce')` is a soft parse returning `missing` on
  failure (the literal string "nan" also yields `missing`, as in pandas).
* `sort_values(ascending=False)` is modelled with insertion sort; the source
  uses an unstable quicksort and the docstrings leave tie order unspecified,
  so only sortedness and permutation of the rows are contractual.
* Rational division is written with `mkRat` so that concrete instances
  evaluate by kernel reduction; `div100_eq` and `scalePow10_eq` relate
  those spellings to ordinary division and powers of ten.
-/

namespace StockApp


/-- A single pandas cell: a string, a (float) number modelled as an exact
rational, or `NaN`/missing. -/
inductive Cell where
  | s (v : String)
  | n (v : Rat)
  | missing
deriving DecidableEq

/-- A row: association list from column name to cell, in column order. -/
abbrev Row := List (String × Cell)

/-- A data frame: ordered column names and ordered rows. -/
structure Table where
  cols : List String
  rows : List Row
deriving DecidableEq

/-- Look a column's cell up in a row (first occurrence of the name);
absent columns read as `missing`. -/
def getCell (r : Row) (c : String) : Cell :=
  match r.find? (fun p => p.1 == c) with
  | some p => p.2
  | none => Cell.missing

/-- Python `str(x)` on a cell: strings unchanged, numbers printed,
`NaN` prints as `"nan"` (as `astype(str)` does in pandas). -/
def cellToStr : Cell → String
  | .s v => v
  | .n q => toString q
  | .missing => "nan"

/-- Drop trailing characters satisfying `p`. -/
def dropTrailing (p : Char → Bool) (l : List Char) : List Char :=
  ((l.reverse).dropWhile p).reverse

/-- Python `str.strip()`: remove leading and trailing whitespace. -/
def trimChars (l : List Char) : List Char :=
  dropTrailing Char.isWhitespace (l.dropWhile Char.isWhitespace)

/-- `str.strip()` on strings. -/
def stripStr (s : String) : String :=
  ⟨trimChars s.data⟩

/-- The regex `[="]` removal step of `clean_stock_id`. -/
def removeIdJunk (s : String) : String :=
  ⟨s.data.filter (fun ch => !(ch == '=') && !(ch == '"'))⟩

/-- `clean_stock_id` (src/app.py line 16): `astype(str)`, remove every
`=` and `"`, strip surrounding whitespace. -/
def clean_stock_id (c : Cell) : Cell :=
  .s (stripStr (removeIdJunk (cellToStr c)))

/-- `clean_number` (src/app.py line 20): `astype(str)`, remove every
thousands-separator comma. -/
def clean_number (c : Cell) : Cell :=
  .s ⟨(cellToStr c).data.filter (fun ch => !(ch == ','))⟩

/-- Numeric value of a digit string (assumes all chars are digits). -/
def digitsToNat (l : List Char) : Nat :=
  l.foldl (fun a c => a * 10 + (c.toNat - 48)) 0

/-- A nonempty all-digit string. -/
def isDigits (l : List Char) : Bool :=
  !l.isEmpty && l.all Char.isDigit

/-- Parse an unsigned decimal mantissa: `123`, `12.34`, `.5`, `5.`. -/
def parseMantissa (l : List Char) : Option Rat :=
  match l.splitOn '.' with
  | [ip] => if isDigits ip then some ((digitsToNat ip : Int) : Rat) else none
  | [ip, fp] =>
      if ip.all Char.isDigit && fp.all Char.isDigit && (!ip.isEmpty || !fp.isEmpty) then
        some (mkRat ((digitsToNat ip * 10 ^ fp.length + digitsToNat fp : Nat) : Int) (10 ^ fp.length))
      else none
  | _ => none

/-- Parse an optional sign followed by `f`-parsable content. -/
def parseSigned (f : List Char → Option Rat) (l : List Char) : Option Rat :=
  match l with
  | '+' :: rest => f rest
  | '-' :: rest => (f rest).map (fun q => -q)
  | _ => f l

/-- Parse a signed integer exponent. -/
def parseExpInt (l : List Char) : Option Int :=
  match l with
  | '+' :: rest => if isDigits rest then some ((digitsToNat rest : Nat) : Int) else none
  | '-' :: rest => if isDigits rest then some (-((digitsToNat rest : Nat) : Int)) else none
  | _ => if isDigits l then some ((digitsToNat l : Nat) : Int) else none

/-- Scale a rational by a power of ten (`q * 10 ^ e`, written with `mkRat`
so that it evaluates by kernel reduction; see `scalePow10_eq`). -/
def scalePow10 (q : Rat) (e : Int) : Rat :=
  match e with
  | .ofNat k => mkRat (q.num * (10 ^ k : Nat)) q.den
  | .negSucc k => mkRat q.num (q.den * 10 ^ (k + 1))

/-- Parse a Python-float-style literal (sign, decimal mantissa, optional
exponent); returns `none` on anything unparseable, including `"nan"`. -/
def parseFloatChars (l : List Char) : Option Rat :=
  match (l.map (fun c => if c == 'E' then 'e' else c)).splitOn 'e' with
  | [m] => parseSigned parseMantissa m
  | [m, ex] =>
      match parseSigned parseMantissa m, parseExpInt ex with
      | some q, some e => some (scalePow10 q e)
      | _, _ => none
  | _ => none

/-- Soft float parse of a string, whitespace-tolerant. -/
def parseFloat (s : String) : Option Rat :=
  parseFloatChars (trimChars s.data)

/-- `pd.to_numeric(errors='coerce')` on one cell: numbers pass through,
strings parse softly, failures and `NaN` become `missing`. -/
def toNumCell : Cell → Cell
  | .n q => .n q
  | .missing => .missing
  | .s v =>
      match parseFloat v with
      | some q => .n q
      | none => .missing

/-- `Series.fillna d` on one cell. -/
def fillnaCell (d : Rat) : Cell → Cell
  | .missing => .n d
  | c => c

/-- Is the cell an actual number? -/
def isNum : Cell → Bool
  | .n _ => true
  | _ => false

/-- `set(req).issubset(df.columns)`. -/
def Table.hasCols (t : Table) (req : List String) : Bool :=
  req.all (fun c => t.cols.contains c)

/-- The columns of `req` absent from `cols`
(`set(req) - set(df.columns)`, represented in `req` order). -/
def missingFrom (req cols : List String) : List String :=
  req.filter (fun c => !(cols.contains c))

/-- `df[cols]` on one row: project to the named columns, in that order. -/
def projectRow (cols : List String) (r : Row) : Row :=
  cols.map (fun c => (c, getCell r c))

/-- `df[cols].copy()`: column projection. -/
def Table.select (t : Table) (cols : List String) : Table :=
  ⟨cols, t.rows.map (projectRow cols)⟩

/-- `df[c] = f(df[c])` on one row. -/
def mapColRow (c : String) (f : Cell → Cell) (r : Row) : Row :=
  r.map (fun p => if p.1 == c then (p.1, f p.2) else p)

/-- `df[c] = f(df[c])`: apply `f` to every cell of column `c`. -/
def mapCol (c : String) (f : Cell → Cell) (t : Table) : Table :=
  ⟨t.cols, t.rows.map (mapColRow c f)⟩

/-- `df.dropna(subset=[c])`. -/
def Table.dropna (t : Table) (c : String) : Table :=
  ⟨t.cols, t.rows.filter (fun r => !(getCell r c == Cell.missing))⟩

/-- `df.head n`. -/
def Table.head (t : Table) (n : Nat) : Table :=
  ⟨t.cols, t.rows.take n⟩

/-- The non-key cells a matched right row contributes to a merge. -/
def rightCells (rcols : List String) (rr : Row) : Row :=
  rcols.map (fun c => (c, getCell rr c))

/-- The rows of `right` whose key cell equals `k`. -/
def matchingRows (right : Table) (key : String) (k : Cell) : List Row :=
  right.rows.filter (fun rr => getCell rr key == k)

/-- How many rows of `t` carry key value `k`. -/
def matchCount (t : Table) (key : String) (k : Cell) : Nat :=
  (matchingRows t key k).length

/-- `pd.merge(left, right, on=key, how='left')`: every left row is kept, in
order; it fans out over all matching right rows, and keeps `missing`
enrichment cells when no right row matches. -/
def mergeLeft (left right : Table) (key : String) : Table :=
  let rcols := right.cols.filter (fun c => !(c == key))
  ⟨left.cols ++ rcols,
    left.rows.flatMap (fun lr =>
      match matchingRows right key (getCell lr key) with
      | [] => [lr ++ rcols.map (fun c => (c, Cell.missing))]
      | ms => ms.map (fun rr => lr ++ rightCells rcols rr))⟩

/-- Descending comparison on ranking cells: numbers by `≥`, with any
non-number ordered below every number (`na_position='last'`). -/
def cellDescLe (a b : Cell) : Bool :=
  match a, b with
  | .n x, .n y => y ≤ x
  | .n _, _ => true
  | _, .n _ => false
  | _, _ => true

/-- Row order for `sort_values(by=c, ascending=False)`. -/
def rowDescLe (c : String) (r1 r2 : Row) : Prop :=
  cellDescLe (getCell r1 c) (getCell r2 c) = true

instance (c : String) : DecidableRel (rowDescLe c) :=
  fun r1 r2 => inferInstanceAs (Decidable (cellDescLe (getCell r1 c) (getCell r2 c) = true))

/-- `df.sort_values(by=c, ascending=False)`. -/
def Table.sortByDesc (t : Table) (c : String) : Table :=
  ⟨t.cols, t.rows.insertionSort (rowDescLe c)⟩

/-- Required columns of the industry source. -/
def industry_req : List String := ["代號", "名稱", "產業別"]

/-- `process_industry_data` (src/app.py lines 24-34): check schema (the
error carries `set(target_cols) - set(df.columns)`), project, clean ids,
drop rows with missing industry. -/
def process_industry_data (df : Table) : Option Table × Option (List String) :=
  if df.hasCols industry_req then
    let df1 := df.select industry_req
    let df2 := mapCol "代號" clean_stock_id df1
    (some (df2.dropna "產業別"), none)
  else
    (none, some (missingFrom industry_req df.cols))

/-- The growth-rate column name `單月營收年增(%)`. -/
def revGrowthCol : String := "單月營收年增(%)"

/-- Required columns of the revenue source for the ranker. -/
def revenue_req : List String := ["代號", "名稱", revGrowthCol]

/-- Cleaning stage of `process_revenue_data` (src/app.py lines 51-54):
project, clean ids, clean and parse growth, default `-999` on failure. -/
def revenue_clean (rev_df : Table) : Table :=
  let df1 := rev_df.select revenue_req
  let df2 := mapCol "代號" clean_stock_id df1
  let df3 := mapCol revGrowthCol clean_number df2
  mapCol revGrowthCol (fun c => fillnaCell (-999) (toNumCell c)) df3

/-- The fixed industry exclusion list (src/app.py line 61). -/
def exclude_industries : List String :=
  ["建材營造", "建材營造業", "金融保險", "金融保險業", "金控業", "銀行業", "證券業", "通信網路業"]

/-- `~merged['產業別'].isin(exclude_industries)` on one row. -/
def industryKeep (r : Row) : Bool :=
  match getCell r "產業別" with
  | .s v => !(exclude_industries.contains v)
  | _ => true

/-- `process_revenue_data` (src/app.py lines 36-67): schema check, clean,
left-merge industry, drop unmatched, filter excluded industries, sort by
growth descending, take the top 50. -/
def process_revenue_data (rev_df ind_df : Table) : Option Table × Option (List String) :=
  if rev_df.hasCols revenue_req then
    let df_clean := revenue_clean rev_df
    let merged := mergeLeft df_clean (ind_df.select ["代號", "產業別"]) "代號"
    let merged2 := merged.dropna "產業別"
    let filtered : Table := ⟨merged2.cols, merged2.rows.filter industryKeep⟩
    (some ((filtered.sortByDesc revGrowthCol).head 50), none)
  else
    (none, some (missingFrom revenue_req rev_df.cols))

/-- Does `pat` occur as a prefix of `s`? -/
def charsPrefixOf : List Char → List Char → Bool
  | [], _ => true
  | _ :: _, [] => false
  | a :: as, b :: bs => a == b && charsPrefixOf as bs

/-- Does `pat` occur as a contiguous subsequence of `l`? -/
def charsOccur (pat : List Char) : List Char → Bool
  | [] => pat.isEmpty
  | l@(_ :: rest) => charsPrefixOf pat l || charsOccur pat rest

/-- Python `pat in s` substring test. -/
def strHasSub (s pat : String) : Bool :=
  charsOccur pat.data s.data

/-- The trading-value column heuristic: name contains both `成交` and `百萬`
(src/app.py line 71). -/
def valColPred (c : String) : Bool :=
  strHasSub c "成交" && strHasSub c "百萬"

/-- The fixed fallback trading-value column name. -/
def default_val_col : String := "成交額(百萬)"

/-- Column resolution of src/app.py lines 71-72: the first column (in
original order) matching the heuristic, else the fixed default name. -/
def resolve_val_col (cols : List String) : String :=
  match cols.find? valColPred with
  | some c => c
  | none => default_val_col

/-- The derived column name `成交額(億)`. -/
def hundredMilCol : String := "成交額(億)"

/-- Division of a rational by 100, written with `mkRat` so that it
evaluates by kernel reduction; `div100_eq` proves it is `q / 100`. -/
def div100 (q : Rat) : Rat :=
  mkRat q.num (q.den * 100)

/-- `df_clean[target] / 100` on one cell (`missing` cannot occur in the
value column after `fillna(0)`). -/
def divCell : Cell → Cell
  | .n q => .n (div100 q)
  | _ => Cell.missing

/-- `process_value_data` (src/app.py lines 69-89): resolve the value
column, check schema (the error message carries the full `req_cols` list),
clean, parse with default `0`, derive `成交額(億) = value / 100`, sort
descending, project. -/
def process_value_data (df : Table) : Option Table × Option (List String) :=
  let target_val_col := resolve_val_col df.cols
  let req_cols := ["代號", "名稱", target_val_col]
  if df.hasCols req_cols then
    let df1 := df.select req_cols
    let df2 := mapCol "代號" clean_stock_id df1
    let df3 := mapCol target_val_col clean_number df2
    let df4 := mapCol target_val_col (fun c => fillnaCell 0 (toNumCell c)) df3
    let df5 : Table :=
      ⟨df4.cols ++ [hundredMilCol],
        df4.rows.map (fun r => r ++ [(hundredMilCol, divCell (getCell r target_val_col))])⟩
    ((df5.sortByDesc hundredMilCol).select ["代號", "名稱", hundredMilCol] |> some, none)
  else
    (none, some req_cols)

/-- Required columns of the revenue lookup. -/
def raw_rev_req : List String := ["代號", revGrowthCol]

/-- Cleaning stage of `get_raw_revenue_map` (src/app.py lines 102-106):
project, clean ids, clean and parse growth, keeping parse failures as
`missing` (no `fillna`). -/
def raw_revenue_clean (rev_df : Table) : Table :=
  let df1 := rev_df.select raw_rev_req
  let df2 := mapCol "代號" clean_stock_id df1
  let df3 := mapCol revGrowthCol clean_number df2
  mapCol revGrowthCol toNumCell df3

/-- `get_raw_revenue_map` (src/app.py lines 91-108): soft failure `none`
when a required column is absent, otherwise the unfiltered lookup table. -/
def get_raw_revenue_map (rev_df : Table) : Option Table :=
  if rev_df.hasCols raw_rev_req then some (raw_revenue_clean rev_df) else none

/-- Steps A-C of the composite build: the first 20 value-ranking rows,
left-merged with the revenue lookup when it was built. -/
def mixStep1 (df_val_sorted raw_rev : Table) : Table :=
  match get_raw_revenue_map raw_rev with
  | some m => mergeLeft (df_val_sorted.head 20) m "代號"
  | none => df_val_sorted.head 20

/-- `df_top20_mix` (src/app.py lines 151-163): head 20 of the value
ranking, left-merged with the revenue lookup, left-merged with the
industry table projected to `{代號, 產業別}`. -/
def df_top20_mix (df_val_sorted raw_rev df_ind : Table) : Table :=
  mergeLeft (mixStep1 df_val_sorted raw_rev) (df_ind.select ["代號", "產業別"]) "代號"

/-- Growth cell as the Revenue Ranker computes it. -/
def rankGrowthCell (r : Row) : Cell :=
  fillnaCell (-999) (toNumCell (clean_number (getCell r revGrowthCol)))

/-- Growth cell as the Revenue Lookup Builder computes it. -/
def lookupGrowthCell (r : Row) : Cell :=
  toNumCell (clean_number (getCell r revGrowthCol))

/-- Closed form of one cleaned Revenue Ranker row. -/
def revCleanRow (r : Row) : Row :=
  [("代號", clean_stock_id (getCell r "代號")), ("名稱", getCell r "名稱"),
    (revGrowthCol, rankGrowthCell r)]

/-- Closed form of one cleaned Revenue Lookup row. -/
def rawRevCleanRow (r : Row) : Row :=
  [("代號", clean_stock_id (getCell r "代號")), (revGrowthCol, lookupGrowthCell r)]

/-- One cleaned Industry Table row (projection plus id cleaning). -/
def indCleanRow (r : Row) : Row :=
  mapColRow "代號" clean_stock_id (projectRow industry_req r)

/-- Value cell as the Value Ranker computes it before unit conversion. -/
def valCleanCell (target : String) (r : Row) : Cell :=
  fillnaCell 0 (toNumCell (clean_number (getCell r target)))

/-- Closed form of one cleaned Value Ranker row. -/
def valCleanRow (target : String) (r : Row) : Row :=
  [("代號", clean_stock_id (getCell r "代號")), ("名稱", getCell r "名稱"),
    (target, valCleanCell target r)]

/-- The derived hundred-million cell of one raw value row. -/
def derivedFromRaw (target : String) (r : Row) : Cell :=
  divCell (valCleanCell target r)

/-! ### Concrete example tables used by witnesses and counterexamples -/

def c1Ind : Table := ⟨["名稱"], []⟩

def c1Rev : Table := ⟨[], []⟩

def c1Any : Table := ⟨[], []⟩

def c1Val : Table := ⟨["代號", "名稱"], []⟩

def c2Ind : Table :=
  ⟨["代號", "名稱", "產業別"],
    [[("代號", .s "1"), ("名稱", .s "X"), ("產業別", .s "銀行")]]⟩

def c2Rev : Table :=
  ⟨["代號", "名稱", revGrowthCol],
    [[("代號", .s "1"), ("名稱", .s "X"), (revGrowthCol, .s "5")]]⟩

def c2IndW : Table :=
  ⟨["代號", "名稱", "產業別"],
    [[("代號", .s "1"), ("名稱", .s "X"), ("產業別", .s "半導體")]]⟩

def c2RevW : Table :=
  ⟨["代號", "名稱", revGrowthCol],
    [[("代號", .s "1"), ("名稱", .s "X"), (revGrowthCol, .s "5")]]⟩

def c2TW : Table :=
  ⟨["代號", "名稱", revGrowthCol, "產業別"],
    [[("代號", .s "1"), ("名稱", .s "X"), (revGrowthCol, .n 5), ("產業別", .s "半導體")]]⟩

def c2RowW : Row :=
  [("代號", .s "1"), ("名稱", .s "X"), (revGrowthCol, .n 5), ("產業別", .s "半導體")]

def c3Val : Table :=
  ⟨["代號", "名稱", "成交額(百萬)"],
    [[("代號", .s "1"), ("名稱", .s "A"), ("成交額(百萬)", .s "100")]]⟩

def c3Rev : Table :=
  ⟨["代號", "名稱", revGrowthCol],
    [[("代號", .s "1"), ("名稱", .s "A"), (revGrowthCol, .s "5")],
     [("代號", .s "1"), ("名稱", .s "A"), (revGrowthCol, .s "6")]]⟩

def c3IndRaw : Table := ⟨["代號", "名稱", "產業別"], []⟩

def c3Vr : Table :=
  ⟨["代號", "名稱", hundredMilCol],
    [[("代號", .s "1"), ("名稱", .s "A"), (hundredMilCol, .n 1)]]⟩

def c3Ind : Table := ⟨["代號", "名稱", "產業別"], []⟩

def c3VrW : Table :=
  ⟨["代號", "名稱", hundredMilCol],
    [[("代號", .s "1"), ("名稱", .s "A"), (hundredMilCol, .n 1)]]⟩

def c3RevW : Table :=
  ⟨["代號", revGrowthCol], [[("代號", .s "1"), (revGrowthCol, .s "5")]]⟩

def c3IndW : Table :=
  ⟨["代號", "名稱", "產業別"],
    [[("代號", .s "1"), ("名稱", .s "A"), ("產業別", .s "半導體")]]⟩

def c4Rev : Table :=
  ⟨["代號", "名稱", revGrowthCol],
    [[("代號", .s "9"), ("名稱", .s "甲"), (revGrowthCol, .s "N/A")],
     [("代號", .s "8"), ("名稱", .s "乙"), (revGrowthCol, .s "12.34")]]⟩

def c4Row : Row := [("代號", .s "9"), (revGrowthCol, .s "N/A")]

def c5Df : Table := ⟨["x", "週成交量百萬股", "成交額(百萬)"], []⟩

def c5Err : Table := ⟨["名稱"], []⟩

def c6Df : Table :=
  ⟨["代號", "名稱", "成交額(百萬)"],
    [[("代號", .s "1"), ("名稱", .s "A"), ("成交額(百萬)", .s "100")],
     [("代號", .s "2"), ("名稱", .s "B"), ("成交額(百萬)", .s "1,234,567")]]⟩

def c6T : Table :=
  ⟨["代號", "名稱", hundredMilCol],
    [[("代號", .s "2"), ("名稱", .s "B"), (hundredMilCol, .n (mkRat 1234567 100))],
     [("代號", .s "1"), ("名稱", .s "A"), (hundredMilCol, .n 1)]]⟩

def c7Ind : Table :=
  ⟨["代號", "名稱", "產業別"],
    [[("代號", .s "1"), ("名稱", .s "X"), ("產業別", .s "半導體")],
     [("代號", .s "2"), ("名稱", .s "Y"), ("產業別", .s "電子")]]⟩

def c7Rev : Table :=
  ⟨["代號", "名稱", revGrowthCol],
    [[("代號", .s "1"), ("名稱", .s "X"), (revGrowthCol, .s "5")],
     [("代號", .s "2"), ("名稱", .s "Y"), (revGrowthCol, .s "7.5")]]⟩

def c7T : Table :=
  ⟨["代號", "名稱", revGrowthCol, "產業別"],
    [[("代號", .s "2"), ("名稱", .s "Y"), (revGrowthCol, .n (mkRat 15 2)), ("產業別", .s "電子")],
     [("代號", .s "1"), ("名稱", .s "X"), (revGrowthCol, .n 5), ("產業別", .s "半導體")]]⟩

def c10Df : Table :=
  ⟨["代號", "名稱", "產業別"],
    [[("代號", .s "1"), ("名稱", Cell.missing), ("產業別", .s "半導體")],
     [("代號", .s "2"), ("名稱", .s "乙"), ("產業別", Cell.missing)]]⟩

def c10T : Table :=
  ⟨["代號", "名稱", "產業別"],
    [[("代號", .s "1"), ("名稱", Cell.missing), ("產業別", .s "半導體")]]⟩

/-! ### Supporting lemmas -/

theorem div100_eq (q : Rat) : div100 q = q / 100 := by
  unfold div100
  rw [Rat.mkRat_eq_div]
  push_cast
  rw [← div_div, Rat.num_div_den]

theorem scalePow10_eq (q : Rat) (e : Int) : scalePow10 q e = q * (10 : Rat) ^ e := by
  cases e with
  | ofNat k =>
      simp only [scalePow10, Rat.mkRat_eq_div]
      push_cast
      rw [Int.ofNat_eq_coe, zpow_natCast, ← div_mul_eq_mul_div, Rat.num_div_den]
  | negSucc k =>
      simp only [scalePow10, Rat.mkRat_eq_div]
      push_cast
      rw [← div_div, Rat.num_div_den, zpow_negSucc, div_eq_mul_inv]

theorem getCell_cons (k : String) (v : Cell) (r : Row) (c : String) :
    getCell ((k, v) :: r) c = if (k == c) = true then v else getCell r c := by
  unfold getCell
  rw [List.find?_cons]
  cases h : (k == c) <;> simp [h]

theorem getCell_projectRow (cols : List String) (r : Row) (c : String) (hc : c ∈ cols) :
    getCell (projectRow cols r) c = getCell r c := by
  induction cols with
  | nil => cases hc
  | cons a as ih =>
      show getCell ((a, getCell r a) :: projectRow as r) c = getCell r c
      rw [getCell_cons]
      by_cases h : a = c
      · subst h; simp
      · have hb : (a == c) = false := by simp [h]
        rw [hb]
        simp only [Bool.false_eq_true, if_false]
        exact ih (by rcases List.mem_cons.mp hc with h' | h'; exact absurd h'.symm h; exact h')

theorem getCell_mapColRow_ne (c : String) (f : Cell → Cell) (r : Row) (c' : String)
    (h : ¬ c' = c) : getCell (mapColRow c f r) c' = getCell r c' := by
  induction r with
  | nil => rfl
  | cons p r ih =>
      obtain ⟨k, v⟩ := p
      show getCell ((if (k == c) = true then (k, f v) else (k, v)) :: mapColRow c f r) c' = _
      by_cases hk : (k == c) = true
      · rw [if_pos hk, getCell_cons, getCell_cons]
        have : (k == c') = false := by
          simp only [beq_iff_eq] at hk
          simp only [beq_eq_false_iff_ne]
          intro he; exact h (he ▸ hk)
        rw [this]
        simp only [Bool.false_eq_true, if_false]
        exact ih
      · rw [if_neg hk, getCell_cons, getCell_cons]
        cases hkc : (k == c') <;> simp [ih]

theorem cellDescLe_total (a b : Cell) : cellDescLe a b = true ∨ cellDescLe b a = true := by
  cases a <;> cases b <;> simp [cellDescLe] <;> exact le_total _ _

theorem cellDescLe_trans (a b c : Cell) (h1 : cellDescLe a b = true)
    (h2 : cellDescLe b c = true) : cellDescLe a c = true := by
  cases a <;> cases b <;> cases c <;> simp_all [cellDescLe] <;> exact le_trans h2 h1

instance (c : String) : IsTotal Row (rowDescLe c) :=
  ⟨fun a b => cellDescLe_total (getCell a c) (getCell b c)⟩

instance (c : String) : IsTrans Row (rowDescLe c) :=
  ⟨fun _ _ _ h1 h2 => cellDescLe_trans _ _ _ h1 h2⟩

theorem mem_mergeLeft_rows (l rt : Table) (key : String) (r : Row)
    (h : r ∈ (mergeLeft l rt key).rows) :
    ∃ lr ∈ l.rows, ∃ s : Row, r = lr ++ s := by
  unfold mergeLeft at h
  simp only [List.mem_flatMap] at h
  obtain ⟨lr, hlr, hr⟩ := h
  refine ⟨lr, hlr, ?_⟩
  rcases hm : matchingRows rt key (getCell lr key) with _ | ⟨m, ms⟩
  · rw [hm] at hr
    simp only [List.mem_singleton] at hr
    exact ⟨_, hr⟩
  · rw [hm] at hr
    simp only [List.mem_map] at hr
    obtain ⟨rr, _, hr⟩ := hr
    exact ⟨_, hr.symm⟩

theorem flatMap_length_of_one {α β : Type} (f : α → List β) (l : List α)
    (h : ∀ a ∈ l, (f a).length = 1) : (l.flatMap f).length = l.length := by
  induction l with
  | nil => rfl
  | cons a l ih =>
      rw [List.flatMap_cons, List.length_append, h a (List.mem_cons_self a l),
        ih (fun a ha => h a (List.mem_cons_of_mem _ ha)), List.length_cons]
      omega

theorem length_mergeLeft (l rt : Table) (key : String)
    (h : ∀ lr ∈ l.rows, matchCount rt key (getCell lr key) ≤ 1) :
    (mergeLeft l rt key).rows.length = l.rows.length := by
  unfold mergeLeft
  refine flatMap_length_of_one _ _ (fun lr hlr => ?_)
  have hc := h lr hlr
  unfold matchCount at hc
  rcases hm : matchingRows rt key (getCell lr key) with _ | ⟨m, ms⟩
  · rfl
  · rw [hm] at hc
    have : ms = [] := by
      cases ms with
      | nil => rfl
      | cons x xs => simp only [List.length_cons] at hc; omega
    subst this
    rfl

theorem resolve_val_col_eq_filter (cols : List String) :
    resolve_val_col cols = ((cols.filter valColPred).headD default_val_col) := by
  unfold resolve_val_col
  rw [← List.filter_head? valColPred cols]
  cases (cols.filter valColPred) <;> rfl

theorem resolve_val_col_ne (cols : List String) :
    ¬ resolve_val_col cols = "代號" ∧ ¬ resolve_val_col cols = "名稱" ∧
      ¬ resolve_val_col cols = hundredMilCol := by
  unfold resolve_val_col
  cases h : cols.find? valColPred with
  | none => exact ⟨by decide, by decide, by decide⟩
  | some c =>
      have hc := List.find?_some h
      show ¬ c = "代號" ∧ ¬ c = "名稱" ∧ ¬ c = hundredMilCol
      refine ⟨fun he => ?_, fun he => ?_, fun he => ?_⟩ <;>
        (rw [he] at hc; revert hc; decide)

theorem revenue_clean_rows (rev : Table) :
    (revenue_clean rev).rows = rev.rows.map revCleanRow := by
  unfold revenue_clean Table.select mapCol
  simp only [List.map_map]
  refine List.map_congr_left (fun r _ => ?_)
  show mapColRow revGrowthCol _ (mapColRow revGrowthCol clean_number
    (mapColRow "代號" clean_stock_id (projectRow revenue_req r))) = revCleanRow r
  simp [projectRow, revenue_req, mapColRow, revCleanRow, revGrowthCol, rankGrowthCell, getCell]

theorem raw_revenue_clean_rows (rev : Table) :
    (raw_revenue_clean rev).rows = rev.rows.map rawRevCleanRow := by
  unfold raw_revenue_clean Table.select mapCol
  simp only [List.map_map]
  refine List.map_congr_left (fun r _ => ?_)
  show mapColRow revGrowthCol toNumCell (mapColRow revGrowthCol clean_number
    (mapColRow "代號" clean_stock_id (projectRow raw_rev_req r))) = rawRevCleanRow r
  simp [projectRow, raw_rev_req, mapColRow, rawRevCleanRow, revGrowthCol, lookupGrowthCell, getCell]

theorem value_row_shape (target : String) (h1 : ¬ target = "代號") (h2 : ¬ target = "名稱")
    (r : Row) :
    mapColRow target (fun c => fillnaCell 0 (toNumCell c)) (mapColRow target clean_number
      (mapColRow "代號" clean_stock_id (projectRow ["代號", "名稱", target] r))) =
      valCleanRow target r := by
  simp [projectRow, mapColRow, valCleanRow, valCleanCell, h1, h2, Ne.symm h1, Ne.symm h2]

theorem process_industry_data_rows (df : Table) (t : Table)
    (ht : (process_industry_data df).1 = some t) :
    t.rows = (df.rows.map indCleanRow).filter
      (fun r => !(getCell r "產業別" == Cell.missing)) := by
  unfold process_industry_data at ht
  by_cases h : df.hasCols industry_req
  · rw [if_pos h] at ht
    simp only [Option.some.injEq] at ht
    subst ht
    show ((mapCol "代號" clean_stock_id (df.select industry_req)).dropna "產業別").rows = _
    unfold Table.dropna mapCol Table.select
    simp only [List.map_map]
    rfl
  · rw [if_neg h] at ht
    cases ht

theorem process_revenue_data_rows (rev ind : Table) (t : Table)
    (ht : (process_revenue_data rev ind).1 = some t) :
    t.rows = (List.insertionSort (rowDescLe revGrowthCol)
      (((mergeLeft (revenue_clean rev) (ind.select ["代號", "產業別"]) "代號").rows.filter
        (fun r => !(getCell r "產業別" == Cell.missing))).filter industryKeep)).take 50 := by
  unfold process_revenue_data at ht
  by_cases h : rev.hasCols revenue_req
  · rw [if_pos h] at ht
    simp only [Option.some.injEq] at ht
    subst ht
    rfl
  · rw [if_neg h] at ht
    cases ht

theorem process_value_data_rows (df : Table) (t : Table)
    (ht : (process_value_data df).1 = some t) :
    t.rows = (List.insertionSort (rowDescLe hundredMilCol)
      (df.rows.map (fun r => valCleanRow (resolve_val_col df.cols) r ++
        [(hundredMilCol, derivedFromRaw (resolve_val_col df.cols) r)]))).map
      (projectRow ["代號", "名稱", hundredMilCol]) := by
  unfold process_value_data at ht
  by_cases h : df.hasCols ["代號", "名稱", resolve_val_col df.cols]
  · rw [if_pos h] at ht
    simp only [Option.some.injEq] at ht
    subst ht
    show ((((mapCol (resolve_val_col df.cols) (fun c => fillnaCell 0 (toNumCell c))
      (mapCol (resolve_val_col df.cols) clean_number (mapCol "代號" clean_stock_id
        (df.select ["代號", "名稱", resolve_val_col df.cols])))).rows.map
          (fun r => r ++ [(hundredMilCol, divCell (getCell r (resolve_val_col df.cols)))])).insertionSort
            (rowDescLe hundredMilCol)).map (projectRow ["代號", "名稱", hundredMilCol])) = _
    obtain ⟨hne1, hne2, hne3⟩ := resolve_val_col_ne df.cols
    unfold mapCol Table.select
    simp only [List.map_map]
    congr 1
    congr 1
    refine List.map_congr_left (fun r _ => ?_)
    simp only [Function.comp_apply]
    rw [value_row_shape _ hne1 hne2]
    congr 1
    show [(hundredMilCol, divCell (getCell (valCleanRow (resolve_val_col df.cols) r) (resolve_val_col df.cols)))] = _
    have : getCell (valCleanRow (resolve_val_col df.cols) r) (resolve_val_col df.cols) =
        valCleanCell (resolve_val_col df.cols) r := by
      have e3 : ("代號" == resolve_val_col df.cols) = false :=
        beq_eq_false_iff_ne.mpr (Ne.symm hne1)
      have e4 : ("名稱" == resolve_val_col df.cols) = false :=
        beq_eq_false_iff_ne.mpr (Ne.symm hne2)
      simp [valCleanRow, getCell_cons, e3, e4]
    rw [this]
    rfl
  · rw [if_neg h] at ht
    cases ht

theorem toNumCell_not_s (c : Cell) (v : String) : ¬ toNumCell c = Cell.s v := by
  cases c with
  | s w => cases h : parseFloat w <;> simp [toNumCell, h]
  | n q => simp [toNumCell]
  | missing => simp [toNumCell]

theorem isNum_rankGrowthCell (r : Row) : isNum (rankGrowthCell r) = true := by
  unfold rankGrowthCell
  cases hx : toNumCell (clean_number (getCell r revGrowthCol)) with
  | s v => exact absurd hx (toNumCell_not_s _ _)
  | n q => simp [fillnaCell, isNum]
  | missing => simp [fillnaCell, isNum]

theorem isNum_valCleanCell (target : String) (r : Row) :
    isNum (valCleanCell target r) = true := by
  unfold valCleanCell
  cases hx : toNumCell (clean_number (getCell r target)) with
  | s v => exact absurd hx (toNumCell_not_s _ _)
  | n q => simp [fillnaCell, isNum]
  | missing => simp [fillnaCell, isNum]

theorem isNum_derivedFromRaw (target : String) (r : Row) :
    isNum (derivedFromRaw target r) = true := by
  unfold derivedFromRaw
  cases hx : valCleanCell target r with
  | s v =>
      have hn := isNum_valCleanCell target r
      rw [hx] at hn
      exact absurd hn (by simp [isNum])
  | n q => simp [divCell, isNum]
  | missing =>
      have hn := isNum_valCleanCell target r
      rw [hx] at hn
      exact absurd hn (by simp [isNum])

theorem getCell_revCleanRow_growth (r : Row) (s : Row) :
    getCell (revCleanRow r ++ s) revGrowthCol = rankGrowthCell r := by
  show getCell (("代號", clean_stock_id (getCell r "代號")) :: ("名稱", getCell r "名稱") ::
    (revGrowthCol, rankGrowthCell r) :: s) revGrowthCol = _
  rw [getCell_cons, getCell_cons, getCell_cons]
  simp [revGrowthCol]

theorem getCell_rawRevCleanRow_growth (r : Row) :
    getCell (rawRevCleanRow r) revGrowthCol = lookupGrowthCell r := by
  show getCell (("代號", clean_stock_id (getCell r "代號")) ::
    (revGrowthCol, lookupGrowthCell r) :: []) revGrowthCol = _
  rw [getCell_cons, getCell_cons]
  simp [revGrowthCol]

theorem getCell_indCleanRow_industry (r : Row) :
    getCell (indCleanRow r) "產業別" = getCell r "產業別" := by
  unfold indCleanRow
  rw [getCell_mapColRow_ne _ _ _ _ (by decide), getCell_projectRow]
  decide

theorem getCell_valDerivedRow (target : String) (h3 : ¬ target = hundredMilCol)
    (r : Row) (d : Cell) :
    getCell (valCleanRow target r ++ [(hundredMilCol, d)]) hundredMilCol = d := by
  show getCell (("代號", clean_stock_id (getCell r "代號")) :: ("名稱", getCell r "名稱") ::
    (target, valCleanCell target r) :: (hundredMilCol, d) :: []) hundredMilCol = _
  rw [getCell_cons, getCell_cons, getCell_cons, getCell_cons]
  have h3s : ¬ target = "成交額(億)" := h3
  simp [h3s, hundredMilCol]

theorem head_dropWhile_false (p : Char → Bool) (l : List Char) (a : Char)
    (h : (l.dropWhile p).head? = some a) : p a = false := by
  induction l with
  | nil => cases h
  | cons x xs ih =>
      rw [List.dropWhile_cons] at h
      by_cases hx : p x = true
      · rw [if_pos hx] at h; exact ih h
      · rw [if_neg hx] at h
        simp only [List.head?_cons, Option.some.injEq] at h
        subst h
        exact Bool.not_eq_true _ ▸ (by simpa using hx)

theorem dropWhile_eq_self_of_head (p : Char → Bool) (l : List Char)
    (h : ∀ a, l.head? = some a → p a = false) : l.dropWhile p = l := by
  cases l with
  | nil => rfl
  | cons x xs =>
      rw [List.dropWhile_cons, if_neg]
      rw [h x rfl]
      simp

theorem trimChars_sublist (y : List Char) : List.Sublist (trimChars y) y := by
  unfold trimChars dropTrailing
  have s1 : List.Sublist (y.dropWhile Char.isWhitespace) y := List.dropWhile_sublist _
  have s2 : List.Sublist ((y.dropWhile Char.isWhitespace).reverse.dropWhile Char.isWhitespace)
      (y.dropWhile Char.isWhitespace).reverse := List.dropWhile_sublist _
  have s3 := s2.reverse
  rw [List.reverse_reverse] at s3
  exact s3.trans s1

theorem mem_trimChars (a : Char) (y : List Char) (h : a ∈ trimChars y) : a ∈ y :=
  (trimChars_sublist y).mem h

theorem rev_dropWhile_eq_self (p : Char → Bool) (v : List Char)
    (hhead : ∀ a, v.head? = some a → p a = false) :
    ((v.reverse.dropWhile p).reverse).dropWhile p = (v.reverse.dropWhile p).reverse := by
  refine dropWhile_eq_self_of_head _ _ (fun a ha => ?_)
  rw [List.head?_reverse] at ha
  have hw : v.reverse.dropWhile p ≠ [] := fun he => by rw [he] at ha; cases ha
  obtain ⟨t, htw⟩ := List.dropWhile_suffix (l := v.reverse) (p := p)
  have hv : v.reverse.getLast? = some a := by
    rw [← htw, List.getLast?_append_of_ne_nil _ hw]
    exact ha
  rw [List.getLast?_reverse] at hv
  exact hhead a hv

theorem trimChars_idem (l : List Char) : trimChars (trimChars l) = trimChars l := by
  unfold trimChars dropTrailing
  rw [rev_dropWhile_eq_self Char.isWhitespace (l.dropWhile Char.isWhitespace)
    (head_dropWhile_false Char.isWhitespace l)]
  rw [List.reverse_reverse, List.dropWhile_idempotent]

theorem stripStr_data (s : String) : (stripStr s).data = trimChars s.data := rfl

theorem stripStr_idem (s : String) : stripStr (stripStr s) = stripStr s := by
  unfold stripStr
  show (⟨trimChars (trimChars s.data)⟩ : String) = _
  rw [trimChars_idem]

theorem removeIdJunk_stripStr_removeIdJunk (s : String) :
    removeIdJunk (stripStr (removeIdJunk s)) = stripStr (removeIdJunk s) := by
  unfold removeIdJunk
  show (⟨((stripStr ⟨s.data.filter _⟩).data).filter _⟩ : String) = _
  rw [stripStr_data]
  show (⟨(trimChars (s.data.filter _)).filter _⟩ : String) = _
  rw [List.filter_eq_self.mpr (fun a ha => ?_)]
  · rfl
  · have := mem_trimChars a _ ha
    exact (List.mem_filter.mp this).2

/-- Claim C8 support: `clean_stock_id` is idempotent at the cell level. -/
theorem clean_stock_id_idem_support (c : Cell) :
    clean_stock_id (clean_stock_id c) = clean_stock_id c := by
  unfold clean_stock_id
  show Cell.s (stripStr (removeIdJunk (cellToStr (Cell.s _)))) = _
  show Cell.s (stripStr (removeIdJunk (stripStr (removeIdJunk (cellToStr c))))) = _
  rw [removeIdJunk_stripStr_removeIdJunk, stripStr_idem]

theorem missingFrom_toFinset (req cols : List String) :
    (missingFrom req cols).toFinset = req.toFinset \ cols.toFinset := by
  ext a
  simp [missingFrom, List.mem_filter, List.elem_iff]

theorem getCell_revCleanRow_growth_nil (r : Row) :
    getCell (revCleanRow r) revGrowthCol = rankGrowthCell r := by
  rw [← List.append_nil (revCleanRow r)]
  exact getCell_revCleanRow_growth r []

theorem revenue_clean_growth_map (rev : Table) :
    (revenue_clean rev).rows.map (fun r => getCell r revGrowthCol) =
      rev.rows.map rankGrowthCell := by
  rw [revenue_clean_rows, List.map_map]
  exact List.map_congr_left (fun r _ => getCell_revCleanRow_growth_nil r)

theorem raw_revenue_clean_growth_map (rev : Table) :
    (raw_revenue_clean rev).rows.map (fun r => getCell r revGrowthCol) =
      rev.rows.map lookupGrowthCell := by
  rw [raw_revenue_clean_rows, List.map_map]
  exact List.map_congr_left (fun r _ => getCell_rawRevCleanRow_growth r)

theorem hasCols_raw_of_revenue (rev : Table) (h : rev.hasCols revenue_req = true) :
    rev.hasCols raw_rev_req = true := by
  simp only [Table.hasCols, revenue_req, raw_rev_req, List.all_cons, List.all_nil,
    Bool.and_true, Bool.and_eq_true] at h ⊢
  exact ⟨h.1, h.2.2⟩

theorem lookupGrowthCell_cases (r : Row) :
    lookupGrowthCell r = Cell.missing ∨ ∃ q, lookupGrowthCell r = Cell.n q := by
  cases hx : lookupGrowthCell r with
  | s v => exact absurd hx (toNumCell_not_s _ _)
  | n q => exact Or.inr ⟨q, rfl⟩
  | missing => exact Or.inl rfl

theorem rankGrowthCell_eq_fillna (r : Row) :
    rankGrowthCell r = fillnaCell (-999) (lookupGrowthCell r) := rfl

theorem revenue_output_mem (rev ind : Table) (t : Table) (r : Row)
    (ht : (process_revenue_data rev ind).1 = some t) (hr : r ∈ t.rows) :
    industryKeep r = true ∧ ∃ r0 ∈ rev.rows, getCell r revGrowthCol = rankGrowthCell r0 := by
  rw [process_revenue_data_rows rev ind t ht] at hr
  have hr1 := List.mem_of_mem_take hr
  have hr2 := (List.perm_insertionSort (rowDescLe revGrowthCol) _).mem_iff.mp hr1
  have hk : industryKeep r = true := (List.mem_filter.mp hr2).2
  have hr3 := (List.mem_filter.mp (List.mem_filter.mp hr2).1).1
  obtain ⟨lr, hlr, s, rfl⟩ := mem_mergeLeft_rows _ _ _ _ hr3
  rw [revenue_clean_rows] at hlr
  obtain ⟨r0, hr0, rfl⟩ := List.mem_map.mp hlr
  exact ⟨hk, r0, hr0, getCell_revCleanRow_growth r0 s⟩

/-! ### The claims -/

/-- C1 counterexample: on a value-source table that has `代號` and `名稱` but
lacks the trading-value column, `process_value_data` reports the full
required-column list — including the present columns `代號` and `名稱` — so
the reported names are not exactly the set of missing columns, refuting the
claim for the Value Ranker. -/
theorem claim_C1_counterexample :
    process_value_data c1Val = (none, some ["代號", "名稱", "成交額(百萬)"]) ∧
    "代號" ∈ ["代號", "名稱", "成交額(百萬)"] ∧
    "代號" ∈ c1Val.cols ∧
    ¬ "成交額(百萬)" ∈ c1Val.cols := by
  exact ⟨by decide, by decide, by decide, by decide⟩

/-- C1 (amended): whenever a required column is absent, each builder produces
no table; the Industry Table Builder and the Revenue Ranker report exactly
the set of required columns not present in the input, while the Value Ranker
reports its entire required-column list `[代號, 名稱, resolved value column]`,
present columns included. -/
theorem claim_C1_amended (ind rev indAny val : Table)
    (h1 : Table.hasCols ind industry_req = false)
    (h2 : Table.hasCols rev revenue_req = false)
    (h3 : Table.hasCols val ["代號", "名稱", resolve_val_col val.cols] = false) :
    process_industry_data ind = (none, some (missingFrom industry_req ind.cols)) ∧
    (missingFrom industry_req ind.cols).toFinset = industry_req.toFinset \ ind.cols.toFinset ∧
    process_revenue_data rev indAny = (none, some (missingFrom revenue_req rev.cols)) ∧
    (missingFrom revenue_req rev.cols).toFinset = revenue_req.toFinset \ rev.cols.toFinset ∧
    process_value_data val = (none, some ["代號", "名稱", resolve_val_col val.cols]) := by
  refine ⟨?_, missingFrom_toFinset _ _, ?_, missingFrom_toFinset _ _, ?_⟩
  · simp [process_industry_data, h1]
  · simp [process_revenue_data, h2]
  · simp [process_value_data, h3]

/-- C1 witness: the amended claim instantiated at concrete tables, each
missing at least one required column. -/
theorem claim_C1_witness :
    Table.hasCols c1Ind industry_req = false ∧
    Table.hasCols c1Rev revenue_req = false ∧
    Table.hasCols c1Val ["代號", "名稱", resolve_val_col c1Val.cols] = false ∧
    (process_industry_data c1Ind = (none, some (missingFrom industry_req c1Ind.cols)) ∧
      (missingFrom industry_req c1Ind.cols).toFinset =
        industry_req.toFinset \ c1Ind.cols.toFinset ∧
      process_revenue_data c1Rev c1Any = (none, some (missingFrom revenue_req c1Rev.cols)) ∧
      (missingFrom revenue_req c1Rev.cols).toFinset =
        revenue_req.toFinset \ c1Rev.cols.toFinset ∧
      process_value_data c1Val = (none, some ["代號", "名稱", resolve_val_col c1Val.cols])) :=
  ⟨by decide, by decide, by decide,
    claim_C1_amended c1Ind c1Rev c1Any c1Val (by decide) (by decide) (by decide)⟩

/-- C2 counterexample: an industry table classifying security 1 as `銀行` —
the short spelling of the banking sector, whose long spelling `銀行業` is in
the code's exclusion list — yields a Revenue Leaderboard containing that
row, so the short spelling of banking is not excluded, refuting the claim
that both spellings of all six sectors are excluded. -/
theorem claim_C2_counterexample :
    (process_industry_data c2Ind).1 = some c2Ind ∧
    ((process_revenue_data c2Rev c2Ind).1.map
      (fun t => t.rows.map (fun r => getCell r "產業別"))) = some [Cell.s "銀行"] ∧
    "銀行業" ∈ exclude_industries ∧
    ¬ "銀行" ∈ exclude_industries :=
  ⟨by decide, by decide, by decide, by decide⟩

/-- C2 (amended): the Revenue Leaderboard contains no row whose industry is
one of the eight literal names in the code's exclusion list — both the short
and the `業`-suffixed spelling for construction materials (建材營造/建材營造業)
and financial-insurance (金融保險/金融保險業), but only the `業`-suffixed
spelling for financial-holding (金控業), banking (銀行業), securities (證券業)
and telecom-network (通信網路業); the corresponding short spellings are not
excluded. -/
theorem claim_C2_amended (rev ind t : Table) (r : Row) (v : String)
    (ht : (process_revenue_data rev ind).1 = some t) (hr : r ∈ t.rows)
    (hv : getCell r "產業別" = Cell.s v) : ¬ v ∈ exclude_industries := by
  obtain ⟨hk, -⟩ := revenue_output_mem rev ind t r ht hr
  unfold industryKeep at hk
  rw [hv] at hk
  intro hmem
  have hc : exclude_industries.contains v = true := List.elem_iff.mpr hmem
  change (!exclude_industries.contains v) = true at hk
  rw [hc] at hk
  simp at hk

/-- C2 witness: the amended claim instantiated at a concrete input whose
single output row carries the non-excluded industry `半導體`. -/
theorem claim_C2_witness :
    (process_revenue_data c2RevW c2IndW).1 = some c2TW ∧
    c2RowW ∈ c2TW.rows ∧
    getCell c2RowW "產業別" = Cell.s "半導體" ∧
    ¬ "半導體" ∈ exclude_industries :=
  ⟨by decide, by decide, by decide,
    claim_C2_amended c2RevW c2IndW c2TW c2RowW "半導體" (by decide) (by decide) (by decide)⟩

/-- C3 counterexample: with a one-row Value Ranking and a revenue source
holding two rows for the same id, the left merge fans out and the Composite
Top-N has 2 rows while `min 20 1 = 1`, refuting the unconditional row-count
claim. -/
theorem claim_C3_counterexample :
    (process_value_data c3Val).1 = some c3Vr ∧
    (process_industry_data c3IndRaw).1 = some c3Ind ∧
    (df_top20_mix c3Vr c3Rev c3Ind).rows.length = 2 ∧
    min 20 c3Vr.rows.length = 1 :=
  ⟨by decide, by decide, by decide, by decide⟩

/-- C3 (amended): if every id in the first 20 Value Ranking rows matches at
most one row of the revenue lookup and, after that merge, at most one row of
the industry projection — in particular whenever ids are unique in the
lookup tables — then the Composite Top-N row count equals
`min 20 (Value Ranking row count)`; duplicate-id fan-out can exceed it. -/
theorem claim_C3_amended (vr rev ind : Table)
    (h1 : ∀ lr ∈ (vr.head 20).rows,
      matchCount ((get_raw_revenue_map rev).getD ⟨[], []⟩) "代號" (getCell lr "代號") ≤ 1)
    (h2 : ∀ lr ∈ (mixStep1 vr rev).rows,
      matchCount (ind.select ["代號", "產業別"]) "代號" (getCell lr "代號") ≤ 1) :
    (df_top20_mix vr rev ind).rows.length = min 20 vr.rows.length := by
  have hstep : (mixStep1 vr rev).rows.length = min 20 vr.rows.length := by
    unfold mixStep1
    cases hm : get_raw_revenue_map rev with
    | none => exact List.length_take 20 _
    | some m =>
        show (mergeLeft (vr.head 20) m "代號").rows.length = min 20 vr.rows.length
        rw [length_mergeLeft _ _ _ (fun lr hlr => by
          have hh := h1 lr hlr
          rw [hm] at hh
          simpa using hh)]
        exact List.length_take 20 _
  unfold df_top20_mix
  rw [length_mergeLeft _ _ _ h2, hstep]

/-- C3 witness: the amended claim instantiated at concrete tables with
unique ids, giving a composite row count of `min 20 1 = 1`. -/
theorem claim_C3_witness :
    (∀ lr ∈ (c3VrW.head 20).rows,
      matchCount ((get_raw_revenue_map c3RevW).getD ⟨[], []⟩) "代號" (getCell lr "代號") ≤ 1) ∧
    (∀ lr ∈ (mixStep1 c3VrW c3RevW).rows,
      matchCount (c3IndW.select ["代號", "產業別"]) "代號" (getCell lr "代號") ≤ 1) ∧
    (df_top20_mix c3VrW c3RevW c3IndW).rows.length = min 20 c3VrW.rows.length :=
  ⟨by decide, by decide, claim_C3_amended c3VrW c3RevW c3IndW (by decide) (by decide)⟩

/-- C4: the Revenue Lookup Builder succeeds on any revenue table accepted by
the Revenue Ranker; row by row, the ranker's growth cell is `fillna (-999)`
of the lookup's growth cell, the ranker's growth cell is never missing, the
two agree exactly when the growth value parsed (the lookup cell is not
missing), and on unparseable rows the ranker assigns the sentinel `-999`
while the lookup keeps the value missing. -/
theorem claim_C4 (rev : Table) (row : Row) (h : Table.hasCols rev revenue_req = true) :
    get_raw_revenue_map rev = some (raw_revenue_clean rev) ∧
    (revenue_clean rev).rows.map (fun r => getCell r revGrowthCol) =
      rev.rows.map rankGrowthCell ∧
    (raw_revenue_clean rev).rows.map (fun r => getCell r revGrowthCol) =
      rev.rows.map lookupGrowthCell ∧
    rankGrowthCell row = fillnaCell (-999) (lookupGrowthCell row) ∧
    ¬ rankGrowthCell row = Cell.missing ∧
    ((rankGrowthCell row = lookupGrowthCell row) ↔ ¬ lookupGrowthCell row = Cell.missing) ∧
    (¬ lookupGrowthCell row = Cell.missing ∨ rankGrowthCell row = Cell.n (-999)) := by
  refine ⟨?_, revenue_clean_growth_map rev, raw_revenue_clean_growth_map rev, rfl, ?_, ?_, ?_⟩
  · unfold get_raw_revenue_map
    rw [hasCols_raw_of_revenue rev h]
    rfl
  · rcases lookupGrowthCell_cases row with hm | ⟨q, hq⟩
    · rw [rankGrowthCell_eq_fillna, hm]; simp [fillnaCell]
    · rw [rankGrowthCell_eq_fillna, hq]; simp [fillnaCell]
  · constructor
    · intro he hm
      rw [rankGrowthCell_eq_fillna, hm] at he
      simp [fillnaCell, hm] at he
    · intro hne
      rcases lookupGrowthCell_cases row with hm | ⟨q, hq⟩
      · exact absurd hm hne
      · rw [rankGrowthCell_eq_fillna, hq]; simp [fillnaCell]
  · rcases lookupGrowthCell_cases row with hm | ⟨q, hq⟩
    · right; rw [rankGrowthCell_eq_fillna, hm]; rfl
    · left; rw [hq]; simp

/-- C4 witness: the asymmetry instantiated at a concrete revenue table with
one unparseable (`N/A`) and one parseable (`12.34`) growth value. -/
theorem claim_C4_witness :
    Table.hasCols c4Rev revenue_req = true ∧
    (get_raw_revenue_map c4Rev = some (raw_revenue_clean c4Rev) ∧
      (revenue_clean c4Rev).rows.map (fun r => getCell r revGrowthCol) =
        c4Rev.rows.map rankGrowthCell ∧
      (raw_revenue_clean c4Rev).rows.map (fun r => getCell r revGrowthCol) =
        c4Rev.rows.map lookupGrowthCell ∧
      rankGrowthCell c4Row = fillnaCell (-999) (lookupGrowthCell c4Row) ∧
      ¬ rankGrowthCell c4Row = Cell.missing ∧
      ((rankGrowthCell c4Row = lookupGrowthCell c4Row) ↔
        ¬ lookupGrowthCell c4Row = Cell.missing) ∧
      (¬ lookupGrowthCell c4Row = Cell.missing ∨ rankGrowthCell c4Row = Cell.n (-999))) :=
  ⟨by decide, claim_C4 c4Rev c4Row (by decide)⟩

/-- C5: the Value Ranker resolves its trading-value column to the first
column (in original order) whose name contains both `成交` and `百萬`,
falling back to the fixed name `成交額(百萬)` when none matches; and when the
resolved column (or `代號` or `名稱`) is absent it produces no table,
returning the schema error instead. -/
theorem claim_C5 (df dferr : Table)
    (h : Table.hasCols dferr ["代號", "名稱", resolve_val_col dferr.cols] = false) :
    resolve_val_col df.cols = (df.cols.filter valColPred).headD default_val_col ∧
    process_value_data dferr = (none, some ["代號", "名稱", resolve_val_col dferr.cols]) := by
  refine ⟨resolve_val_col_eq_filter df.cols, ?_⟩
  simp [process_value_data, h]

/-- C5 witness: resolution instantiated at a table whose first heuristic
match is `週成交量百萬股`, and the failure case at a table lacking every
required column. -/
theorem claim_C5_witness :
    Table.hasCols c5Err ["代號", "名稱", resolve_val_col c5Err.cols] = false ∧
    (resolve_val_col c5Df.cols = (c5Df.cols.filter valColPred).headD default_val_col ∧
      process_value_data c5Err = (none, some ["代號", "名稱", resolve_val_col c5Err.cols])) :=
  ⟨by decide, claim_C5 c5Df c5Err (by decide)⟩

/-- C6: on any value-source input accepted by the Value Ranker, the output
has exactly as many rows as the input, its rows are non-increasing in the
derived `成交額(億)` field, each of those cells is an actual number, and the
multiset of derived cells is exactly the input rows' cleaned parsed trading
values (defaulting to 0 when unparseable) divided by 100. -/
theorem claim_C6 (df t : Table) (ht : (process_value_data df).1 = some t) :
    t.rows.length = df.rows.length ∧
    List.Pairwise (rowDescLe hundredMilCol) t.rows ∧
    List.Perm (t.rows.map (fun r => getCell r hundredMilCol))
      (df.rows.map (derivedFromRaw (resolve_val_col df.cols))) ∧
    t.rows.all (fun r => isNum (getCell r hundredMilCol)) = true := by
  have hrows := process_value_data_rows df t ht
  obtain ⟨hne1, hne2, hne3⟩ := resolve_val_col_ne df.cols
  have hmem : hundredMilCol ∈ ["代號", "名稱", hundredMilCol] := by decide
  refine ⟨?_, ?_, ?_, ?_⟩
  · rw [hrows, List.length_map, List.length_insertionSort, List.length_map]
  · rw [hrows]
    refine List.Pairwise.map _ (fun a b hab => ?_)
      (List.sorted_insertionSort (rowDescLe hundredMilCol) _)
    unfold rowDescLe at hab ⊢
    rw [getCell_projectRow _ _ _ hmem, getCell_projectRow _ _ _ hmem]
    exact hab
  · rw [hrows, List.map_map]
    have hmc : ∀ a ∈ (df.rows.map (fun r => valCleanRow (resolve_val_col df.cols) r ++
        [(hundredMilCol, derivedFromRaw (resolve_val_col df.cols) r)])).insertionSort
          (rowDescLe hundredMilCol),
        ((fun r => getCell r hundredMilCol) ∘ projectRow ["代號", "名稱", hundredMilCol]) a =
          (fun r => getCell r hundredMilCol) a :=
      fun a _ => getCell_projectRow _ _ _ hmem
    rw [List.map_congr_left hmc]
    have he2 : (df.rows.map (fun r => valCleanRow (resolve_val_col df.cols) r ++
        [(hundredMilCol, derivedFromRaw (resolve_val_col df.cols) r)])).map
          (fun r => getCell r hundredMilCol) =
        df.rows.map (derivedFromRaw (resolve_val_col df.cols)) := by
      rw [List.map_map]
      exact List.map_congr_left (fun r _ => getCell_valDerivedRow _ hne3 r _)
    refine ((List.perm_insertionSort _ _).map _).trans ?_
    rw [he2]
  · rw [hrows]
    refine List.all_eq_true.mpr (fun x hx => ?_)
    obtain ⟨r', hr', rfl⟩ := List.mem_map.mp hx
    have hr2 := (List.perm_insertionSort (rowDescLe hundredMilCol) _).mem_iff.mp hr'
    obtain ⟨r0, hr0, rfl⟩ := List.mem_map.mp hr2
    rw [getCell_projectRow _ _ _ hmem, getCell_valDerivedRow _ hne3 r0 _]
    exact isNum_derivedFromRaw _ r0

/-- C6 witness: the Value Ranker instantiated at a two-row table containing
the value string `1,234,567`, whose derived cell is `12345.67`
(`mkRat 1234567 100`). -/
theorem claim_C6_witness :
    (process_value_data c6Df).1 = some c6T ∧
    (c6T.rows.length = c6Df.rows.length ∧
      List.Pairwise (rowDescLe hundredMilCol) c6T.rows ∧
      List.Perm (c6T.rows.map (fun r => getCell r hundredMilCol))
        (c6Df.rows.map (derivedFromRaw (resolve_val_col c6Df.cols))) ∧
      c6T.rows.all (fun r => isNum (getCell r hundredMilCol)) = true) :=
  ⟨by decide, claim_C6 c6Df c6T (by decide)⟩

/-- C7: every successfully built Revenue Leaderboard has at most 50 rows,
its rows are non-increasing in the growth-rate column, and every growth-rate
cell is an actual number. -/
theorem claim_C7 (rev ind t : Table) (ht : (process_revenue_data rev ind).1 = some t) :
    t.rows.length ≤ 50 ∧ List.Pairwise (rowDescLe revGrowthCol) t.rows ∧
    t.rows.all (fun r => isNum (getCell r revGrowthCol)) = true := by
  refine ⟨?_, ?_, ?_⟩
  · rw [process_revenue_data_rows rev ind t ht, List.length_take]
    exact Nat.min_le_left _ _
  · rw [process_revenue_data_rows rev ind t ht]
    exact (List.sorted_insertionSort (rowDescLe revGrowthCol) _).sublist
      (List.take_sublist _ _)
  · refine List.all_eq_true.mpr (fun r hr => ?_)
    obtain ⟨-, r0, -, hg⟩ := revenue_output_mem rev ind t r ht hr
    rw [hg]
    exact isNum_rankGrowthCell r0

/-- C7 witness: the leaderboard invariants instantiated at a concrete
two-row input. -/
theorem claim_C7_witness :
    (process_revenue_data c7Rev c7Ind).1 = some c7T ∧
    (c7T.rows.length ≤ 50 ∧ List.Pairwise (rowDescLe revGrowthCol) c7T.rows ∧
      c7T.rows.all (fun r => isNum (getCell r revGrowthCol)) = true) :=
  ⟨by decide, claim_C7 c7Rev c7Ind c7T (by decide)⟩

/-- C8: `clean_stock_id` is idempotent on every cell: applying it twice
yields the same result as applying it once. -/
theorem claim_C8 (c : Cell) : clean_stock_id (clean_stock_id c) = clean_stock_id c :=
  clean_stock_id_idem_support c

/-- C10: the Industry Table Builder keeps exactly the cleaned rows whose
industry cell is present — dropping is decided by the industry column alone,
so a row with a missing name but a present industry is retained, and the
output row count equals the number of input rows with a present industry. -/
theorem claim_C10 (df t : Table) (ht : (process_industry_data df).1 = some t) :
    t.rows = (df.rows.map indCleanRow).filter
      (fun r => !(getCell r "產業別" == Cell.missing)) ∧
    t.rows.length = (df.rows.filter
      (fun r => !(getCell r "產業別" == Cell.missing))).length := by
  have h := process_industry_data_rows df t ht
  refine ⟨h, ?_⟩
  rw [h, List.filter_map, List.length_map]
  refine congrArg List.length (List.filter_congr (fun r _ => ?_))
  simp only [Function.comp_apply, getCell_indCleanRow_industry]

/-- C10 witness: instantiated at a table whose first row has a missing name
but a present industry (retained) and whose second row has a missing
industry (dropped). -/
theorem claim_C10_witness :
    (process_industry_data c10Df).1 = some c10T ∧
    (c10T.rows = (c10Df.rows.map indCleanRow).filter
        (fun r => !(getCell r "產業別" == Cell.missing)) ∧
      c10T.rows.length = (c10Df.rows.filter
        (fun r => !(getCell r "產業別" == Cell.missing))).length) :=
  ⟨by decide, claim_C10 c10Df c10T (by decide)⟩

end StockApp
